import Mathlib

/-
  Verification development for the Privacy Glasses plugin (src/main.ts).
  The definitions below are a shallow embedding of the plugin's decision
  core: the reveal policy (shouldRevealLeaf), the idle monitor
  (checkIdleTimeout), the view lifecycle hook (hookViewStateChanged /
  isHooked / ensureLeavesHooked), the before-transition reveal stripping
  (onBeforeViewStateChange), and the style applier
  (updateGlobalRevealStyle / updateLeafViewStyle).
-/

namespace PrivacyGlasses

/-- Embedding of `enum Level` (src/main.ts lines 9-14). -/
inductive Level where
  | HideAll
  | HidePrivate
  | RevealAll
  | RevealHeadlines
deriving DecidableEq, Repr

/-- String value of `CssClass.BlurAll`. -/
def cssBlurAll : String := "privacy-glasses-blur-all"

/-- String value of `CssClass.RevealOnHover`. -/
def cssRevealOnHover : String := "privacy-glasses-reveal-on-hover"

/-- String value of `CssClass.RevealAll`. -/
def cssRevealAll : String := "privacy-glasses-reveal-all"

/-- String value of `CssClass.RevealUnderCaret`. -/
def cssRevealUnderCaret : String := "privacy-glasses-reveal-under-caret"

/-- String value of `CssClass.RevealHeadlines`. -/
def cssRevealHeadlines : String := "privacy-glasses-reveal-headlines"

/-- String value of `CssClass.Reveal` and `CssClass.PrivacyGlassesReveal`
(both enum members hold the same string). -/
def cssReveal : String := "privacy-glasses-reveal"

/-- String value of `CssClass.IsMdView`. -/
def cssIsMdView : String := "is-md-view"

/-- String value of `CssClass.IsNonMdView`. -/
def cssIsNonMdView : String := "is-non-md-view"

/-- String value of `CssClass.IsMdViewHeadlinesOnly`. -/
def cssIsMdViewHeadlinesOnly : String := "is-md-view-headlines-only"

/-- Embedding of `interface PrivacyGlassesSettings` (src/main.ts 352-360).
Numeric fields are rationals (JS numbers used only for comparisons and
division by 1000 in this code). -/
structure PrivacyGlassesSettings where
  blurOnStartup : Level
  blurLevel : ℚ
  blurOnIdleTimeoutSeconds : ℚ
  hoverToReveal : Bool
  revealUnderCaret : Bool
  privateDirs : String
  privateNoteMarker : String
deriving DecidableEq, Repr

/-- Embedding of `DEFAULT_SETTINGS` (src/main.ts 361-369). -/
def DEFAULT_SETTINGS : PrivacyGlassesSettings :=
  { blurOnStartup := Level.HidePrivate
    blurLevel := 0.3
    blurOnIdleTimeoutSeconds := -1
    hoverToReveal := true
    revealUnderCaret := false
    privateDirs := ""
    privateNoteMarker := "#private" }

/-- Model of `view.file?.parent?.path`: the file object reachable from a
view; `parentPath = none` models a null/undefined `parent` (so that
`?.path` yields undefined). -/
structure TFileModel where
  parentPath : Option String
deriving DecidableEq, Repr

/-- Model of one entry of `CachedMetadata.tags` (a `TagCache`); the code
reads `x.tag` and filters by JS truthiness (`!!x.tag`), so a missing or
empty tag is modelled as the empty string. -/
structure TagCache where
  tag : String
deriving DecidableEq, Repr

/-- Model of `CachedMetadata.frontmatter`: `tags = none` models absence of
the `tags` key (the code tests `'tags' in frontmatter`). -/
structure FrontMatter where
  tags : Option (List String)
deriving DecidableEq, Repr

/-- Model of the value of `metadataCache.getFileCache(file)`:
`tags = none` models absence of the `tags` key in the cache object;
`frontmatter = none` models an undefined `frontmatter` field. -/
structure FileCache where
  tags : Option (List TagCache)
  frontmatter : Option FrontMatter
deriving DecidableEq, Repr

/-- Shape of a host `View` object as consumed by `shouldRevealLeaf`:
`hasOwnFile` models `Object.getOwnPropertyDescriptor(view, "file")`
being defined (the `isMarkdownFileInfoView` test), `hasFileKey` and
`hasEditorKey` model the `"file" in view` / `"editor" in view` checks
(which also see the prototype chain), `editorTruthy` models `!!view.editor`,
and `file` is the value of `view.file` (`none` = null/undefined). -/
structure ViewShape where
  hasOwnFile : Bool
  hasFileKey : Bool
  hasEditorKey : Bool
  editorTruthy : Bool
  file : Option TFileModel
deriving DecidableEq, Repr

/-- JS errors thrown by the embedded code; `shouldRevealLeaf` can throw a
TypeError from using the `in` operator on null/undefined. -/
inductive JsError where
  | typeError
deriving DecidableEq, Repr

/-- Does the character list `pat` occur at the head of `l`? Helper for the
substring test of JS `String.prototype.includes`. -/
def prefMatch : List Char → List Char → Bool
  | [], _ => true
  | _ :: _, [] => false
  | p :: ps, x :: xs => p == x && prefMatch ps xs

/-- Does the character list `pat` occur anywhere inside `l`? -/
def subMatch (pat : List Char) : List Char → Bool
  | [] => prefMatch pat []
  | x :: xs => prefMatch pat (x :: xs) || subMatch pat xs

/-- JS `s.includes(pat)` / Obsidian `s.contains(pat)`: substring test. -/
def jsIncludes (s pat : String) : Bool :=
  subMatch pat.toList s.toList

/-- JS string coercion applied by `String.prototype.includes` to its
argument: an undefined argument (modelled as `none`) is coerced to the
string "undefined". -/
def jsPathStr (p : Option String) : String := p.getD "undefined"

/-- Embedding of `isMarkdownFileInfoView` (src/main.ts 481-484): true iff
the view has an own `file` property descriptor. -/
def isMarkdownFileInfoView (v : ViewShape) : Bool := v.hasOwnFile

/-- Tags gathered from the note body (src/main.ts 232-234): if the cache
has a `tags` key, keep entries whose `tag` is truthy and map to `x.tag`. -/
def bodyTags (c : FileCache) : List String :=
  match c.tags with
  | some ts => (ts.filter (fun x => x.tag != "")).map TagCache.tag
  | none => []

/-- Tags gathered from the front-matter (src/main.ts 236-238): if the
front-matter object has a `tags` key, keep its truthy entries. -/
def fmTags (fm : FrontMatter) : List String :=
  match fm.tags with
  | some ts => ts.filter (fun x => x != "")
  | none => []

/-- All tags gathered by `shouldRevealLeaf` (body tags then front-matter
tags, in the order the code pushes them). -/
def gatherTags (c : FileCache) (fm : FrontMatter) : List String :=
  bodyTags c ++ fmTags fm

/-- Directory fallback of `shouldRevealLeaf` (src/main.ts 244-251):
`view.file && !this.settings.privateDirs.contains(view.file?.parent?.path)`.
Note the direction of the substring test: the raw comma-delimited
`privateDirs` setting string is searched for the parent path. -/
def shouldRevealDir (s : PrivacyGlassesSettings) (v : ViewShape) :
    Except JsError Bool :=
  match v.file with
  | some f =>
      if jsIncludes s.privateDirs (jsPathStr f.parentPath) = false then
        Except.ok true
      else Except.ok false
  | none => Except.ok false

/-- Embedding of `shouldRevealLeaf` (src/main.ts 209-252). `cache` is the
value of `this.app.metadataCache.getFileCache(view.file)` (all three call
sites use the same argument, so a single value is passed). The `in`
operator on a null cache (line 232) or on an undefined `frontmatter`
(line 236) throws a TypeError, which the embedding returns as
`Except.error`. The code pushes body tags before testing the front-matter,
but a front-matter throw discards them, so the match order below is
result-equivalent to the source order. -/
def shouldRevealLeaf (lvl : Level) (s : PrivacyGlassesSettings)
    (v : ViewShape) (cache : Option FileCache) : Except JsError Bool :=
  if lvl = Level.RevealAll then Except.ok true
  else if lvl = Level.HideAll ∨ lvl = Level.RevealHeadlines then
    Except.ok false
  else if isMarkdownFileInfoView v = false then Except.ok true
  else if v.hasEditorKey = false ∨ v.hasFileKey = false then Except.ok false
  else if v.editorTruthy = true ∧ s.privateNoteMarker ≠ "" then
    match cache with
    | none => Except.error JsError.typeError
    | some c =>
      match c.frontmatter with
      | none => Except.error JsError.typeError
      | some fm =>
        if (gatherTags c fm).length > 0 then
          Except.ok (!((gatherTags c fm).contains s.privateNoteMarker))
        else shouldRevealDir s v
  else shouldRevealDir s v

/-- JS truthiness of the `lastEventTime` field (`!this.lastEventTime`):
undefined (none) and 0 are falsy. -/
def jsTruthyNum (t : Option ℚ) : Bool :=
  match t with
  | none => false
  | some v => v != 0

/-- Embedding of `checkIdleTimeout` (src/main.ts 176-192). Returns the new
`currentLevel` and whether `updateLeavesAndGlobalReveals` was triggered.
Times are in milliseconds (`performance.now()` / event timestamps); the
threshold is in seconds, compared against `(now - last) / 1000`. -/
def checkIdleTimeout (s : PrivacyGlassesSettings) (currentLevel : Level)
    (lastEventTime : Option ℚ) (now : ℚ) : Level × Bool :=
  if s.blurOnIdleTimeoutSeconds < 0 then (currentLevel, false)
  else if currentLevel = Level.HideAll then (currentLevel, false)
  else if jsTruthyNum lastEventTime = false then (currentLevel, false)
  else
    match lastEventTime with
    | none => (currentLevel, false)
    | some t =>
      if (now - t) / 1000 ≥ s.blurOnIdleTimeoutSeconds then
        (Level.HideAll, true)
      else (currentLevel, false)

/-- A DOM element's class list. The DOM keeps classes as an ordered
token set: `classList.add` appends a class only if absent, `removeClass`
removes every occurrence. -/
abbrev ClassList := List String

/-- DOM `classList.add c` / Obsidian `addClass c`: append `c` unless it is
already present. -/
def addClass (cs : ClassList) (c : String) : ClassList :=
  if cs.contains c then cs else cs ++ [c]

/-- DOM `classList.remove c` / Obsidian `removeClass c` for one class. -/
def removeClass1 (cs : ClassList) (c : String) : ClassList :=
  cs.filter (fun x => x != c)

/-- Obsidian `removeClass c1, c2, ...`: remove several classes. -/
def removeClasses (cs : ClassList) (toRemove : List String) : ClassList :=
  toRemove.foldl removeClass1 cs

/-- Embedding of `removeAllClasses` (src/main.ts 298-300): removes the five
level-related body classes. -/
def removeAllClasses (body : ClassList) : ClassList :=
  removeClasses body
    [cssBlurAll, cssRevealOnHover, cssRevealAll, cssRevealUnderCaret,
     cssRevealHeadlines]

/-- Embedding of `setClassToDocumentBody` (src/main.ts 302-314): the switch
adds one class per level and nothing for `HidePrivate`. -/
def setClassToDocumentBody (currentLevel : Level) (body : ClassList) :
    ClassList :=
  match currentLevel with
  | Level.HideAll => addClass body cssBlurAll
  | Level.RevealAll => addClass body cssRevealAll
  | Level.RevealHeadlines => addClass body cssRevealHeadlines
  | Level.HidePrivate => body

/-- Embedding of `updateGlobalRevealStyle` (src/main.ts 287-296) acting on
the document body's class list. -/
def updateGlobalRevealStyle (s : PrivacyGlassesSettings) (lvl : Level)
    (body : ClassList) : ClassList :=
  let b1 := removeAllClasses body
  let b2 := setClassToDocumentBody lvl b1
  let b3 := if s.hoverToReveal then addClass b2 cssRevealOnHover else b2
  if s.revealUnderCaret then addClass b3 cssRevealUnderCaret else b3

/-- Embedding of `updateLeafViewStyle` (src/main.ts 254-274) acting on one
view container's class list. `isMd` is the value of
`isMarkdownFileInfoView(view) && view.editor`, and `shouldReveal` the
per-view reveal decision, both taken as inputs; the push of the container
onto `this.revealed` is modelled separately (see `RevealState`). -/
def updateLeafViewStyle (lvl : Level) (isMd : Bool) (shouldReveal : Bool)
    (cs : ClassList) : ClassList :=
  let cs1 := removeClasses cs
    [cssIsMdView, cssIsNonMdView, cssIsMdViewHeadlinesOnly]
  let cs2 :=
    if isMd = true ∧ lvl = Level.RevealHeadlines then
      addClass cs1 cssIsMdViewHeadlinesOnly
    else if isMd = true then addClass cs1 cssIsMdView
    else addClass cs1 cssIsNonMdView
  if shouldReveal then addClass cs2 cssReveal
  else removeClass1 cs2 cssReveal

/-- State touched by `onBeforeViewStateChange`: the open containers' class
lists (indexed by position) and the plugin's `revealed` array, holding
indices of containers pushed by `updateLeafViewStyle`. -/
structure RevealState where
  containers : List ClassList
  revealed : List Nat
deriving DecidableEq, Repr

/-- One step of the `forEach` in `onBeforeViewStateChange`:
`r.removeClass(CssClass.Reveal)` on the container at index `i`. -/
def stripRevealedAt (conts : List ClassList) (i : Nat) : List ClassList :=
  conts.set i (removeClass1 (conts.getD i []) cssReveal)

/-- Embedding of `onBeforeViewStateChange` (src/main.ts 139-143): strips
the reveal class from every container tracked in `revealed`. The
`revealed` array itself is not written by the source function. -/
def onBeforeViewStateChange (st : RevealState) : RevealState :=
  { st with containers := st.revealed.foldl stripRevealedAt st.containers }

/-- Result of a JS `setState` call as inspected by the hook wrapper:
`thenable` models a value whose `then` member is a function (a promise),
`plain` any other value. -/
inductive JsValue where
  | thenable (v : Nat)
  | plain (v : Nat)
deriving DecidableEq, Repr

/-- Observable events of one run of the hook wrapper, in order. -/
inductive HookEvent where
  | beforeHook
  | origCalled (receiver : Nat) (args : List Nat)
  | afterOnResolve
  | afterImmediate
deriving DecidableEq, Repr

/-- Embedding of the `wrapper` installed by `hookViewStateChanged`
(src/main.ts 492-515). `setState` is the original function captured at
hook time (receiver and argument list abstracted as naturals);
`boundView` is the view the wrapper was bound to (`wrapper.bind(view)`),
so the receiver seen by the original is `boundView` whatever
`callReceiver` the caller uses. Returns the value returned to the caller
and the ordered trace of hook events: the before-hook runs first, then the
original, then the after-hook — scheduled on promise resolution when the
result is thenable, immediately otherwise. -/
def hookedSetState (setState : Nat → List Nat → JsValue) (boundView : Nat)
    (_callReceiver : Nat) (args : List Nat) : JsValue × List HookEvent :=
  let r := setState boundView args
  match r with
  | JsValue.thenable v =>
      (JsValue.thenable v,
       [HookEvent.beforeHook, HookEvent.origCalled boundView args,
        HookEvent.afterOnResolve])
  | JsValue.plain v =>
      (JsValue.plain v,
       [HookEvent.beforeHook, HookEvent.origCalled boundView args,
        HookEvent.afterImmediate])

/-- Hooking-relevant shape of a view object: whether `setState` is an own
property (`Object.getOwnPropertyNames(view).contains("setState")`),
whether that own value is a function, and a ghost counter of how many
times `hookViewStateChanged` wrapped this view. On a fresh view `setState`
lives on the prototype, so it is not an own property. -/
structure HookedView where
  hasOwnSetState : Bool
  ownSetStateIsFunction : Bool
  timesWrapped : Nat
deriving DecidableEq, Repr

/-- Embedding of `isHooked` (src/main.ts 486-490). -/
def isHooked (v : HookedView) : Bool :=
  v.hasOwnSetState && v.ownSetStateIsFunction

/-- Effect of `hookViewStateChanged` on the view object (src/main.ts 513):
`anyView.setState = wrapper.bind(view)` installs an own function-valued
`setState`; the ghost counter records the wrap. -/
def applyHook (v : HookedView) : HookedView :=
  { hasOwnSetState := true, ownSetStateIsFunction := true,
    timesWrapped := v.timesWrapped + 1 }

/-- Embedding of `ensureLeavesHooked` (src/main.ts 153-164) on the list of
open views: already-hooked views are skipped, the rest are wrapped. -/
def ensureLeavesHooked (vs : List HookedView) : List HookedView :=
  vs.map (fun v => if isHooked v then v else applyHook v)

/-! Concrete objects used by witnesses and counterexamples. -/

/-- A markdown document view with a truthy editor whose file sits in the
folder "finance". -/
def vFinanceNote : ViewShape :=
  { hasOwnFile := true, hasFileKey := true, hasEditorKey := true,
    editorTruthy := true, file := some { parentPath := some "finance" } }

/-- A markdown document view with a truthy editor whose file sits in the
folder "fin". -/
def vFinNote : ViewShape :=
  { hasOwnFile := true, hasFileKey := true, hasEditorKey := true,
    editorTruthy := true, file := some { parentPath := some "fin" } }

/-- A non-document view (no own `file` property, no editor). -/
def vSidebar : ViewShape :=
  { hasOwnFile := false, hasFileKey := false, hasEditorKey := false,
    editorTruthy := false, file := none }

/-- Metadata with no body tags and a front-matter object without a `tags`
key: no tag signal, and no throw. -/
def cacheNoTagSignal : FileCache :=
  { tags := none, frontmatter := some { tags := none } }

/-- Metadata with the single body tag `#work` and an empty front-matter
object. -/
def cacheWorkTag : FileCache :=
  { tags := some [{ tag := "#work" }], frontmatter := some { tags := none } }

/-- Metadata with a body tag but no front-matter at all (a note without a
front-matter block). -/
def cacheBodyTagNoFm : FileCache :=
  { tags := some [{ tag := "#work" }], frontmatter := none }

/-- Settings with private-directories entry "fin". -/
def sDirsFin : PrivacyGlassesSettings :=
  { DEFAULT_SETTINGS with privateDirs := "fin" }

/-- Settings with private-directories entries "finance,therapy". -/
def sDirsFinance : PrivacyGlassesSettings :=
  { DEFAULT_SETTINGS with privateDirs := "finance,therapy" }

/-- Settings with idle threshold 5 seconds. -/
def sIdle5 : PrivacyGlassesSettings :=
  { DEFAULT_SETTINGS with blurOnIdleTimeoutSeconds := 5 }

/-- The note yields no tag signal for `shouldRevealLeaf`: the tag branch
is skipped (falsy editor or no configured marker) or it runs without
throwing and gathers no tags. -/
def noTagSignal (s : PrivacyGlassesSettings) (v : ViewShape)
    (cache : Option FileCache) : Prop :=
  v.editorTruthy = false ∨ s.privateNoteMarker = "" ∨
    ∃ c fm, cache = some c ∧ c.frontmatter = some fm ∧ gatherTags c fm = []

/-! Claim theorems. -/

/-- C3: when the current level is not HidePrivate the reveal decision
depends only on the level: RevealAll yields true for every view and any
settings or metadata, HideAll and RevealHeadlines yield false for every
view (in particular every document view). -/
theorem shouldRevealLeaf_level_only (lvl : Level)
    (s : PrivacyGlassesSettings) (v : ViewShape) (cache : Option FileCache) :
    (lvl = Level.RevealAll → shouldRevealLeaf lvl s v cache = Except.ok true) ∧
    (lvl = Level.HideAll ∨ lvl = Level.RevealHeadlines →
      shouldRevealLeaf lvl s v cache = Except.ok false) := by
  constructor
  · intro h; subst h; simp [shouldRevealLeaf]
  · intro h; rcases h with h | h <;> subst h <;> simp [shouldRevealLeaf]

/-- Witness for C3 at concrete inputs. -/
theorem shouldRevealLeaf_level_only_witness :
    shouldRevealLeaf Level.RevealAll DEFAULT_SETTINGS vFinanceNote none =
      Except.ok true ∧
    shouldRevealLeaf Level.HideAll DEFAULT_SETTINGS vFinanceNote none =
      Except.ok false ∧
    shouldRevealLeaf Level.RevealHeadlines DEFAULT_SETTINGS vFinanceNote none =
      Except.ok false :=
  ⟨(shouldRevealLeaf_level_only Level.RevealAll DEFAULT_SETTINGS vFinanceNote
      none).1 rfl,
   (shouldRevealLeaf_level_only Level.HideAll DEFAULT_SETTINGS vFinanceNote
      none).2 (Or.inl rfl),
   (shouldRevealLeaf_level_only Level.RevealHeadlines DEFAULT_SETTINGS
      vFinanceNote none).2 (Or.inr rfl)⟩

/-- C4: under HidePrivate a non-document view (one failing the
`isMarkdownFileInfoView` test, i.e. no own `file` property) is always
revealed, for all settings and all metadata. -/
theorem shouldRevealLeaf_nonDocument (s : PrivacyGlassesSettings)
    (v : ViewShape) (cache : Option FileCache)
    (h : isMarkdownFileInfoView v = false) :
    shouldRevealLeaf Level.HidePrivate s v cache = Except.ok true := by
  simp [shouldRevealLeaf, h]

/-- Witness for C4 at a concrete sidebar-like view. -/
theorem shouldRevealLeaf_nonDocument_witness :
    shouldRevealLeaf Level.HidePrivate DEFAULT_SETTINGS vSidebar none =
      Except.ok true :=
  shouldRevealLeaf_nonDocument DEFAULT_SETTINGS vSidebar none rfl

/-- C5 (code bug): with a configured marker and a truthy editor the reveal
decision throws a TypeError when the file has no metadata cache entry, and
also when the cache has no front-matter (even though body tags exist);
only a present front-matter object without a `tags` key falls through to
the directory policy. -/
theorem shouldRevealLeaf_throws_on_missing_metadata :
    shouldRevealLeaf Level.HidePrivate sDirsFinance vFinanceNote none =
      Except.error JsError.typeError ∧
    shouldRevealLeaf Level.HidePrivate sDirsFinance vFinanceNote
      (some cacheBodyTagNoFm) = Except.error JsError.typeError ∧
    shouldRevealLeaf Level.HidePrivate sDirsFinance vFinanceNote
      (some cacheNoTagSignal) = Except.ok false :=
  ⟨rfl, rfl, rfl⟩

/-- C1 (counterexample): with directory prefix "fin" configured and a note
in folder "finance" yielding no tag signal, the view is revealed under
HidePrivate, not hidden as the claim states ("fin".contains("finance") is
false). -/
theorem shouldRevealLeaf_fin_counterexample :
    shouldRevealLeaf Level.HidePrivate sDirsFin vFinanceNote
      (some cacheNoTagSignal) = Except.ok true :=
  rfl

/-- C1 (amended): under HidePrivate, for a document view whose note yields
no tag signal, the view is hidden iff the file is null or its parent
folder path occurs as a substring of the raw comma-delimited
private-directories setting string (the setting is searched for the path,
not the path for a setting entry). -/
theorem shouldRevealLeaf_dir_substring (s : PrivacyGlassesSettings)
    (v : ViewShape) (cache : Option FileCache)
    (hOwn : v.hasOwnFile = true) (hFk : v.hasFileKey = true)
    (hEk : v.hasEditorKey = true) (hNoTag : noTagSignal s v cache) :
    (∀ f, v.file = some f →
      shouldRevealLeaf Level.HidePrivate s v cache =
        Except.ok (!(jsIncludes s.privateDirs (jsPathStr f.parentPath)))) ∧
    (v.file = none →
      shouldRevealLeaf Level.HidePrivate s v cache = Except.ok false) := by
  have hdir : shouldRevealLeaf Level.HidePrivate s v cache =
      shouldRevealDir s v := by
    rcases hNoTag with h | h | ⟨c, fm, hc, hfm, hg⟩
    · simp [shouldRevealLeaf, isMarkdownFileInfoView, hOwn, hFk, hEk, h]
    · simp [shouldRevealLeaf, isMarkdownFileInfoView, hOwn, hFk, hEk, h]
    · subst hc
      by_cases hcond : v.editorTruthy = true ∧ s.privateNoteMarker ≠ ""
      · simp [shouldRevealLeaf, isMarkdownFileInfoView, hOwn, hFk, hEk,
          hcond, hfm, hg]
      · simp [shouldRevealLeaf, isMarkdownFileInfoView, hOwn, hFk, hEk,
          hcond]
  constructor
  · intro f hf
    rw [hdir]
    cases hj : jsIncludes s.privateDirs (jsPathStr f.parentPath) <;>
      simp [shouldRevealDir, hf, hj]
  · intro hf
    rw [hdir]
    simp [shouldRevealDir, hf]

/-- Witness for the amended C1: "fin" configured does not hide a note in
"finance" (revealed), while "finance,therapy" configured hides a note in
"fin" (the raw setting string contains "fin"). -/
theorem shouldRevealLeaf_dir_substring_witness :
    shouldRevealLeaf Level.HidePrivate sDirsFin vFinanceNote
      (some cacheNoTagSignal) = Except.ok true ∧
    shouldRevealLeaf Level.HidePrivate sDirsFinance vFinNote
      (some cacheNoTagSignal) = Except.ok false := by
  constructor
  · have h := (shouldRevealLeaf_dir_substring sDirsFin vFinanceNote
      (some cacheNoTagSignal) rfl rfl rfl
      (Or.inr (Or.inr ⟨cacheNoTagSignal, { tags := none }, rfl, rfl, rfl⟩))).1
      { parentPath := some "finance" } rfl
    rw [h]; rfl
  · have h := (shouldRevealLeaf_dir_substring sDirsFinance vFinNote
      (some cacheNoTagSignal) rfl rfl rfl
      (Or.inr (Or.inr ⟨cacheNoTagSignal, { tags := none }, rfl, rfl, rfl⟩))).1
      { parentPath := some "fin" } rfl
    rw [h]; rfl

/-- C2: under HidePrivate, for a document view (own file, editor and file
keys, truthy editor) with a configured non-empty marker, when the gathered
tag set is non-empty (and gathering does not throw, i.e. front-matter is
present), the view is revealed iff the marker is absent from the gathered
tags, and the private-directories setting is never consulted. -/
theorem shouldRevealLeaf_tag_over_dir (s : PrivacyGlassesSettings)
    (v : ViewShape) (c : FileCache) (fm : FrontMatter)
    (hOwn : v.hasOwnFile = true) (hFk : v.hasFileKey = true)
    (hEk : v.hasEditorKey = true) (hEd : v.editorTruthy = true)
    (hm : s.privateNoteMarker ≠ "") (hfm : c.frontmatter = some fm)
    (hne : gatherTags c fm ≠ []) :
    shouldRevealLeaf Level.HidePrivate s v (some c) =
      Except.ok (!((gatherTags c fm).contains s.privateNoteMarker)) ∧
    ∀ dirs, shouldRevealLeaf Level.HidePrivate
        { s with privateDirs := dirs } v (some c) =
      shouldRevealLeaf Level.HidePrivate s v (some c) := by
  have hlen : (gatherTags c fm).length > 0 :=
    List.length_pos.mpr hne
  constructor
  · simp [shouldRevealLeaf, isMarkdownFileInfoView, hOwn, hFk, hEk, hEd,
      hm, hfm, hlen]
  · intro dirs
    simp [shouldRevealLeaf, isMarkdownFileInfoView, hOwn, hFk, hEk, hEd,
      hm, hfm, hlen]

/-- Witness for C2: a note in the private folder "finance" tagged #work
(marker #private absent) is revealed. -/
theorem shouldRevealLeaf_tag_over_dir_witness :
    shouldRevealLeaf Level.HidePrivate sDirsFinance vFinanceNote
      (some cacheWorkTag) = Except.ok true := by
  have h := (shouldRevealLeaf_tag_over_dir sDirsFinance vFinanceNote
    cacheWorkTag { tags := none } rfl rfl rfl rfl (by decide) rfl
    (by decide)).1
  rw [h]; rfl

/-- C6: on an idle-monitor tick, a negative idle timeout setting, a level
already HideAll, or an unobserved (falsy) last input time leave the state
unchanged; otherwise the level becomes HideAll with a full re-evaluation
exactly when the elapsed seconds since the last input reach the
threshold. -/
theorem checkIdleTimeout_spec (s : PrivacyGlassesSettings) (lvl : Level)
    (last : Option ℚ) (now : ℚ) :
    (s.blurOnIdleTimeoutSeconds < 0 →
      checkIdleTimeout s lvl last now = (lvl, false)) ∧
    (lvl = Level.HideAll → checkIdleTimeout s lvl last now = (lvl, false)) ∧
    (last = none → checkIdleTimeout s lvl last now = (lvl, false)) ∧
    (∀ t, last = some t → t ≠ 0 → 0 ≤ s.blurOnIdleTimeoutSeconds →
      lvl ≠ Level.HideAll →
      ((s.blurOnIdleTimeoutSeconds ≤ (now - t) / 1000 →
          checkIdleTimeout s lvl last now = (Level.HideAll, true)) ∧
        ((now - t) / 1000 < s.blurOnIdleTimeoutSeconds →
          checkIdleTimeout s lvl last now = (lvl, false)))) := by
  refine ⟨?_, ?_, ?_, ?_⟩
  · intro h; simp [checkIdleTimeout, h]
  · intro h; subst h; unfold checkIdleTimeout
    split <;> simp
  · intro h; subst h; unfold checkIdleTimeout
    split
    · rfl
    · split
      · rfl
      · simp [jsTruthyNum]
  · intro t hlast ht h0 hlvl
    subst hlast
    have h1 : ¬ s.blurOnIdleTimeoutSeconds < 0 := not_lt.mpr h0
    have h2 : jsTruthyNum (some t) = true := by
      simp [jsTruthyNum, ht]
    constructor
    · intro hge
      simp [checkIdleTimeout, h1, hlvl, h2, hge]
    · intro hlt
      simp [checkIdleTimeout, h1, hlvl, h2, not_le.mpr hlt]

/-- Witness for C6: threshold 5 seconds, last input at 100 ms; a tick at
5100 ms (elapsed 5.0 s) forces HideAll and triggers re-evaluation, a tick
at 5000 ms (elapsed 4.9 s) changes nothing. -/
theorem checkIdleTimeout_spec_witness :
    checkIdleTimeout sIdle5 Level.HidePrivate (some 100) 5100 =
      (Level.HideAll, true) ∧
    checkIdleTimeout sIdle5 Level.HidePrivate (some 100) 5000 =
      (Level.HidePrivate, false) := by
  constructor
  · exact ((checkIdleTimeout_spec sIdle5 Level.HidePrivate (some 100)
      5100).2.2.2 100 rfl (by norm_num)
      (by show (0:ℚ) ≤ 5; norm_num) (by simp)).1
      (by show (5:ℚ) ≤ (5100 - 100) / 1000; norm_num)
  · exact ((checkIdleTimeout_spec sIdle5 Level.HidePrivate (some 100)
      5000).2.2.2 100 rfl (by norm_num)
      (by show (0:ℚ) ≤ 5; norm_num) (by simp)).2
      (by show ((5000 - 100 : ℚ)) / 1000 < 5; norm_num)

/-! Lemmas about reveal-class stripping (used by C7). -/

/-- The reveal class is gone after removing it. -/
lemma cssReveal_not_mem_removeClass1 (cs : ClassList) :
    cssReveal ∉ removeClass1 cs cssReveal := by
  simp [removeClass1]

/-- After one `forEach` step the container at the stripped index has no
reveal class. -/
lemma stripRevealedAt_getD_self (conts : List ClassList) (i : Nat) :
    cssReveal ∉ (stripRevealedAt conts i).getD i [] := by
  by_cases h : i < conts.length
  · have heq : (stripRevealedAt conts i).getD i [] =
        removeClass1 (conts.getD i []) cssReveal := by
      simp [stripRevealedAt, List.getD, List.getElem?_set_self, h]
    rw [heq]
    exact cssReveal_not_mem_removeClass1 _
  · rw [stripRevealedAt, List.set_eq_of_length_le (by omega)]
    simp [List.getD, List.getElem?_eq_none (by omega : conts.length ≤ i)]

/-- A `forEach` step at one index leaves other indices untouched. -/
lemma stripRevealedAt_getD_ne (conts : List ClassList) (i j : Nat)
    (h : i ≠ j) :
    (stripRevealedAt conts j).getD i [] = conts.getD i [] := by
  simp [stripRevealedAt, List.getD, List.getElem?_set_ne (Ne.symm h)]

/-- A `forEach` step never adds the reveal class anywhere. -/
lemma stripRevealedAt_keep (conts : List ClassList) (j i : Nat)
    (h : cssReveal ∉ conts.getD i []) :
    cssReveal ∉ (stripRevealedAt conts j).getD i [] := by
  by_cases hij : i = j
  · subst hij; exact stripRevealedAt_getD_self conts i
  · rw [stripRevealedAt_getD_ne conts i j hij]; exact h

/-- Folding the `forEach` preserves reveal-class absence. -/
lemma foldl_stripRevealedAt_keep (l : List Nat) (conts : List ClassList)
    (i : Nat) (h : cssReveal ∉ conts.getD i []) :
    cssReveal ∉ (l.foldl stripRevealedAt conts).getD i [] := by
  induction l generalizing conts with
  | nil => exact h
  | cons j rest ih => exact ih _ (stripRevealedAt_keep conts j i h)

/-- After the full `forEach`, every index in the list has no reveal
class. -/
lemma foldl_stripRevealedAt_mem (l : List Nat) :
    ∀ (conts : List ClassList) (i : Nat), i ∈ l →
      cssReveal ∉ (l.foldl stripRevealedAt conts).getD i [] := by
  induction l with
  | nil => intro conts i h; cases h
  | cons j rest ih =>
    intro conts i h
    rcases List.mem_cons.mp h with h1 | h1
    · subst h1
      exact foldl_stripRevealedAt_keep rest (stripRevealedAt conts i) i
        (stripRevealedAt_getD_self conts i)
    · exact ih (stripRevealedAt conts j) i h1

/-- A plugin state with one stale-revealed container tracked at index 0. -/
def stStale : RevealState :=
  { containers := [[cssReveal]], revealed := [0] }

/-- C7 (counterexample): after `onBeforeViewStateChange` the Revealed-set
is not cleared — with one tracked container the set still holds it. -/
theorem onBeforeViewStateChange_not_cleared :
    (onBeforeViewStateChange stStale).revealed = [0] ∧
    (onBeforeViewStateChange stStale).revealed ≠ [] :=
  ⟨rfl, by decide⟩

/-- C7 (amended): on entry into a hooked view's state transition the
reveal class is stripped from every container tracked in the Revealed-set,
but the set itself is left unchanged rather than cleared. -/
theorem onBeforeViewStateChange_strips (st : RevealState) :
    (onBeforeViewStateChange st).revealed = st.revealed ∧
    ∀ i, i ∈ st.revealed →
      cssReveal ∉ (onBeforeViewStateChange st).containers.getD i [] := by
  refine ⟨rfl, ?_⟩
  intro i h
  exact foldl_stripRevealedAt_mem st.revealed st.containers i h

/-- Witness for the amended C7 at the concrete one-container state. -/
theorem onBeforeViewStateChange_strips_witness :
    (onBeforeViewStateChange stStale).revealed = stStale.revealed ∧
    cssReveal ∉ (onBeforeViewStateChange stStale).containers.getD 0 [] :=
  ⟨(onBeforeViewStateChange_strips stStale).1,
   (onBeforeViewStateChange_strips stStale).2 0 (by decide)⟩

/-- C8: the hook wrapper returns the original transition's result
unchanged to the caller, invokes the original exactly once with the bound
receiver and the unchanged arguments after the before-hook, and runs the
after-hook on promise resolution for thenable results and immediately for
plain results. -/
theorem hookedSetState_spec (setState : Nat → List Nat → JsValue)
    (boundView callReceiver : Nat) (args : List Nat) :
    (hookedSetState setState boundView callReceiver args).1 =
      setState boundView args ∧
    (hookedSetState setState boundView callReceiver args).2 =
      [HookEvent.beforeHook, HookEvent.origCalled boundView args,
        match setState boundView args with
        | JsValue.thenable _ => HookEvent.afterOnResolve
        | JsValue.plain _ => HookEvent.afterImmediate] := by
  cases h : setState boundView args <;> simp [hookedSetState, h]

/-- A freshly wrapped view carries the hook marker. -/
lemma isHooked_applyHook (v : HookedView) : isHooked (applyHook v) = true :=
  rfl

/-- One attachment pass is idempotent: a second pass changes nothing. -/
lemma ensureLeavesHooked_idem (vs : List HookedView) :
    ensureLeavesHooked (ensureLeavesHooked vs) = ensureLeavesHooked vs := by
  simp only [ensureLeavesHooked, List.map_map]
  apply List.map_congr_left
  intro v _
  by_cases h : isHooked v
  · simp [h]
  · simp [Function.comp, h, isHooked_applyHook]

/-- C9: hook attachment is at-most-once per view: any number of repeated
attachment passes equals a single pass, and one pass wraps exactly the
views not already carrying the hook marker (each at most once, counted by
the ghost wrap counter). -/
theorem ensureLeavesHooked_at_most_once (vs : List HookedView) (n : Nat) :
    ensureLeavesHooked^[n + 1] vs = ensureLeavesHooked vs ∧
    (ensureLeavesHooked vs).map HookedView.timesWrapped =
      vs.map (fun v => if isHooked v then v.timesWrapped
        else v.timesWrapped + 1) := by
  constructor
  · induction n with
    | zero => simp
    | succ m ih =>
      rw [Function.iterate_succ_apply', ih, ensureLeavesHooked_idem]
  · simp only [ensureLeavesHooked, List.map_map]
    apply List.map_congr_left
    intro v _
    by_cases h : isHooked v <;> simp [Function.comp, h, applyHook]

/-! Lemmas about class-list operations (used by C10). -/

/-- Membership after `classList.add`. -/
lemma mem_addClass (cs : ClassList) (c d : String) :
    d ∈ addClass cs c ↔ d ∈ cs ∨ d = c := by
  unfold addClass
  split
  · rename_i h
    have hc : c ∈ cs := by simpa using h
    constructor
    · exact Or.inl
    · rintro (h1 | rfl)
      · exact h1
      · exact hc
  · simp

/-- Membership after removing one class. -/
lemma mem_removeClass1 (cs : ClassList) (c d : String) :
    d ∈ removeClass1 cs c ↔ d ∈ cs ∧ d ≠ c := by
  simp [removeClass1]

/-- Membership after `removeAllClasses`. -/
lemma mem_removeAllClasses (body : ClassList) (d : String) :
    d ∈ removeAllClasses body ↔
      d ∈ body ∧ d ≠ cssBlurAll ∧ d ≠ cssRevealOnHover ∧ d ≠ cssRevealAll ∧
        d ≠ cssRevealUnderCaret ∧ d ≠ cssRevealHeadlines := by
  simp [removeAllClasses, removeClasses, removeClass1, and_assoc]
  tauto

/-- Membership after removing the three md-view marker classes. -/
lemma mem_removeMdClasses (cs : ClassList) (d : String) :
    d ∈ removeClasses cs
        [cssIsMdView, cssIsNonMdView, cssIsMdViewHeadlinesOnly] ↔
      d ∈ cs ∧ d ≠ cssIsMdView ∧ d ≠ cssIsNonMdView ∧
        d ≠ cssIsMdViewHeadlinesOnly := by
  simp [removeClasses, removeClass1, and_assoc]
  tauto

/-- Removing a class keeps the class list duplicate-free. -/
lemma nodup_removeClass1 (cs : ClassList) (c : String) (h : cs.Nodup) :
    (removeClass1 cs c).Nodup := h.filter _

/-- `classList.add` keeps the class list duplicate-free. -/
lemma nodup_addClass (cs : ClassList) (c : String) (h : cs.Nodup) :
    (addClass cs c).Nodup := by
  unfold addClass
  split
  · exact h
  · rename_i hc
    simp at hc
    simp [List.nodup_append, h, hc]

/-- Removing several classes keeps the class list duplicate-free. -/
lemma nodup_removeClasses (cs : ClassList) (rs : List String)
    (h : cs.Nodup) : (removeClasses cs rs).Nodup := by
  induction rs generalizing cs with
  | nil => exact h
  | cons r rest ih => exact ih _ (nodup_removeClass1 _ _ h)

/-- The body class applier keeps the body class list duplicate-free. -/
lemma nodup_updateGlobalRevealStyle (s : PrivacyGlassesSettings)
    (lvl : Level) (body : ClassList) (h : body.Nodup) :
    (updateGlobalRevealStyle s lvl body).Nodup := by
  have h1 : (removeAllClasses body).Nodup := nodup_removeClasses _ _ h
  have h2 : (setClassToDocumentBody lvl (removeAllClasses body)).Nodup := by
    cases lvl <;> simp only [setClassToDocumentBody] <;>
      first
        | exact nodup_addClass _ _ h1
        | exact h1
  simp only [updateGlobalRevealStyle]
  split
  · apply nodup_addClass
    split
    · exact nodup_addClass _ _ h2
    · exact h2
  · split
    · exact nodup_addClass _ _ h2
    · exact h2

/-- The per-view class applier keeps a container class list
duplicate-free. -/
lemma nodup_updateLeafViewStyle (lvl : Level) (isMd rev : Bool)
    (cs : ClassList) (h : cs.Nodup) :
    (updateLeafViewStyle lvl isMd rev cs).Nodup := by
  have h1 : (removeClasses cs
      [cssIsMdView, cssIsNonMdView, cssIsMdViewHeadlinesOnly]).Nodup :=
    nodup_removeClasses _ _ h
  have h2 : ∀ c : String,
      (addClass (removeClasses cs
        [cssIsMdView, cssIsNonMdView, cssIsMdViewHeadlinesOnly]) c).Nodup :=
    fun c => nodup_addClass _ _ h1
  simp only [updateLeafViewStyle]
  split
  · apply nodup_addClass
    split
    · exact h2 _
    · split
      · exact h2 _
      · exact h2 _
  · apply nodup_removeClass1
    split
    · exact h2 _
    · split
      · exact h2 _
      · exact h2 _

/-- The single level class added to the body for each level (none for
HidePrivate), per `setClassToDocumentBody`. -/
def levelClassOf : Level → Option String
  | Level.HideAll => some cssBlurAll
  | Level.RevealAll => some cssRevealAll
  | Level.RevealHeadlines => some cssRevealHeadlines
  | Level.HidePrivate => none

/-- The three level body classes. -/
def levelClassList : List String :=
  [cssBlurAll, cssRevealAll, cssRevealHeadlines]

/-- The md-view marker class chosen by `updateLeafViewStyle`. -/
def mdClassOf (lvl : Level) (isMd : Bool) : String :=
  if isMd = true ∧ lvl = Level.RevealHeadlines then cssIsMdViewHeadlinesOnly
  else if isMd = true then cssIsMdView
  else cssIsNonMdView

/-- Membership characterisation of the body class applier. -/
lemma mem_updateGlobalRevealStyle (s : PrivacyGlassesSettings) (lvl : Level)
    (body : ClassList) (d : String) :
    d ∈ updateGlobalRevealStyle s lvl body ↔
      ((d ∈ body ∧ d ≠ cssBlurAll ∧ d ≠ cssRevealOnHover ∧
          d ≠ cssRevealAll ∧ d ≠ cssRevealUnderCaret ∧
          d ≠ cssRevealHeadlines) ∨
        (lvl = Level.HideAll ∧ d = cssBlurAll) ∨
        (lvl = Level.RevealAll ∧ d = cssRevealAll) ∨
        (lvl = Level.RevealHeadlines ∧ d = cssRevealHeadlines) ∨
        (s.hoverToReveal = true ∧ d = cssRevealOnHover) ∨
        (s.revealUnderCaret = true ∧ d = cssRevealUnderCaret)) := by
  cases lvl <;> cases hh : s.hoverToReveal <;>
    cases hr : s.revealUnderCaret <;>
      simp [updateGlobalRevealStyle, setClassToDocumentBody, mem_addClass,
        mem_removeAllClasses, hh, hr] <;>
    tauto

/-- Membership characterisation of the per-view class applier. -/
lemma mem_updateLeafViewStyle (lvl : Level) (isMd rev : Bool)
    (cs : ClassList) (d : String) :
    d ∈ updateLeafViewStyle lvl isMd rev cs ↔
      (rev = true ∧ d = cssReveal) ∨
      (((d ∈ cs ∧ d ≠ cssIsMdView ∧ d ≠ cssIsNonMdView ∧
            d ≠ cssIsMdViewHeadlinesOnly) ∨ d = mdClassOf lvl isMd) ∧
        (rev = false → d ≠ cssReveal)) := by
  cases isMd <;> cases rev <;>
    by_cases hRH : lvl = Level.RevealHeadlines <;>
      simp [updateLeafViewStyle, mdClassOf, mem_addClass, mem_removeClass1,
        mem_removeMdClasses, hRH] <;>
    tauto

/-- Propositional shape of body-class idempotence. -/
lemma global_idem_aux (P N D : Prop) :
    (((P ∧ N) ∨ D) ∧ N) ∨ D ↔ (P ∧ N) ∨ D := by
  tauto

/-- Propositional shape of per-view-class idempotence. -/
lemma leaf_idem_aux (R P N3 M2 G : Prop) :
    R ∨ ((((R ∨ (((P ∧ N3) ∨ M2) ∧ G)) ∧ N3) ∨ M2) ∧ G) ↔
      R ∨ (((P ∧ N3) ∨ M2) ∧ G) := by
  tauto

/-- C10: the style applier is idempotent: with unchanged level, settings
and per-view reveal decisions a second run yields the same class set on
the document body and on a view container as one run; class lists stay
duplicate-free; and the body carries exactly the one level class of the
current level (none for HidePrivate). -/
theorem styleApplier_idempotent (s : PrivacyGlassesSettings) (lvl : Level)
    (isMd rev : Bool) (body cs : ClassList)
    (hb : body.Nodup) (hc : cs.Nodup) :
    (∀ d, d ∈ updateGlobalRevealStyle s lvl
        (updateGlobalRevealStyle s lvl body) ↔
      d ∈ updateGlobalRevealStyle s lvl body) ∧
    (∀ d, d ∈ updateLeafViewStyle lvl isMd rev
        (updateLeafViewStyle lvl isMd rev cs) ↔
      d ∈ updateLeafViewStyle lvl isMd rev cs) ∧
    (updateGlobalRevealStyle s lvl body).Nodup ∧
    (updateLeafViewStyle lvl isMd rev cs).Nodup ∧
    (∀ c, c ∈ levelClassList →
      (c ∈ updateGlobalRevealStyle s lvl body ↔
        levelClassOf lvl = some c)) := by
  refine ⟨?_, ?_, nodup_updateGlobalRevealStyle s lvl body hb,
    nodup_updateLeafViewStyle lvl isMd rev cs hc, ?_⟩
  · intro d
    simp only [mem_updateGlobalRevealStyle]
    exact global_idem_aux _ _ _
  · intro d
    simp only [mem_updateLeafViewStyle]
    exact leaf_idem_aux _ _ _ _ _
  · intro c hcl
    have hcl3 : c = cssBlurAll ∨ c = cssRevealAll ∨ c = cssRevealHeadlines := by
      simpa [levelClassList] using hcl
    rcases hcl3 with rfl | rfl | rfl <;> cases lvl <;>
      simp [mem_updateGlobalRevealStyle, levelClassOf, cssBlurAll,
        cssRevealOnHover, cssRevealAll, cssRevealUnderCaret,
        cssRevealHeadlines]

/-- Witness for C10 at concrete inputs (level HideAll, default settings,
an md view with reveal decision true). -/
theorem styleApplier_idempotent_witness :
    (cssBlurAll ∈ updateGlobalRevealStyle DEFAULT_SETTINGS Level.HideAll
        (updateGlobalRevealStyle DEFAULT_SETTINGS Level.HideAll
          [cssBlurAll]) ↔
      cssBlurAll ∈ updateGlobalRevealStyle DEFAULT_SETTINGS Level.HideAll
        [cssBlurAll]) ∧
    (cssReveal ∈ updateLeafViewStyle Level.HideAll true true
        (updateLeafViewStyle Level.HideAll true true [cssReveal]) ↔
      cssReveal ∈ updateLeafViewStyle Level.HideAll true true
        [cssReveal]) ∧
    (updateGlobalRevealStyle DEFAULT_SETTINGS Level.HideAll
      [cssBlurAll]).Nodup ∧
    (updateLeafViewStyle Level.HideAll true true [cssReveal]).Nodup ∧
    (cssBlurAll ∈ updateGlobalRevealStyle DEFAULT_SETTINGS Level.HideAll
        [cssBlurAll] ↔
      levelClassOf Level.HideAll = some cssBlurAll) := by
  have h := styleApplier_idempotent DEFAULT_SETTINGS Level.HideAll true true
    [cssBlurAll] [cssReveal] (by decide) (by decide)
  exact ⟨h.1 cssBlurAll, h.2.1 cssReveal, h.2.2.1, h.2.2.2.1,
    h.2.2.2.2 cssBlurAll (by decide)⟩

end PrivacyGlasses
